import Mathlib

/-!
Shallow embedding of the data/filter/aggregation pipeline of the
client-side sales dashboard (React/TypeScript).  Monetary amounts are
modelled as exact rationals, record dates as integer millisecond
timestamps.  Rendering, localisation and string formatting are
presentational and outside the modelled pipeline.
-/

/-- One sales transaction line (`SaleRecord` in `types.ts`).  `date` is the
millisecond timestamp carried by the JS `Date`. -/
structure SaleRecord where
  id : String
  date : Int
  category : String
  product : String
  region : String
  sales : ℚ
  quantity : Nat
  profit : ℚ
deriving DecidableEq, Repr

/-- Display currencies (`Currency` in `types.ts`); the base currency is BRL. -/
inductive Currency where
  | BRL | USD | ARS | PYG | UYU
deriving DecidableEq, Repr

/-- The fixed base currency of stored monetary fields. -/
def baseCurrency : Currency := Currency.BRL

/-- The user-editable exchange-rate table (the `rates` state in the app
component): one rate per non-base currency. -/
structure Rates where
  USD : ℚ
  ARS : ℚ
  PYG : ℚ
  UYU : ℚ
deriving DecidableEq, Repr

/-- `filterData` from `services/dataService.ts`: keep records whose region
passes the region selection and whose category passes the category
selection, an empty selection meaning "no restriction". -/
def filterData (data : List SaleRecord) (selectedRegions selectedCategories : List String) :
    List SaleRecord :=
  data.filter fun item =>
    (selectedRegions.isEmpty || selectedRegions.contains item.region) &&
    (selectedCategories.isEmpty || selectedCategories.contains item.category)

/-- The `conversionFactor` memo in the app component: `1` for BRL,
`1 / rates.USD` for USD, and `rates[currency]` otherwise. -/
def conversionFactor (currency : Currency) (rates : Rates) : ℚ :=
  match currency with
  | Currency.BRL => 1
  | Currency.USD => 1 / rates.USD
  | Currency.ARS => rates.ARS
  | Currency.PYG => rates.PYG
  | Currency.UYU => rates.UYU

/-- The aggregate KPI record computed by the `metrics` memo. -/
structure Metrics where
  totalSales : ℚ
  totalQuantity : Nat
  totalProfit : ℚ
  avgTicket : ℚ
deriving Repr

/-- The `metrics` memo in the app component: reduces of the filtered data,
with the average ticket guarded by the `length > 0` test. -/
def metrics (filteredData : List SaleRecord) : Metrics :=
  { totalSales := filteredData.foldl (fun sum item => sum + item.sales) 0
    totalQuantity := filteredData.foldl (fun sum item => sum + item.quantity) 0
    totalProfit := filteredData.foldl (fun sum item => sum + item.profit) 0
    avgTicket := if 0 < filteredData.length then
        (filteredData.foldl (fun sum item => sum + item.sales) 0) / (filteredData.length : ℚ)
      else 0 }

/-- The rate-input `onChange` handler in the app component:
`Math.max(0.0001, parseFloat(value) || 0)`.  A non-numeric input parses to
`NaN`, which `|| 0` turns into `0`; `none` models that case. -/
def clampRate (parsed : Option ℚ) : ℚ :=
  max (0.0001 : ℚ) (parsed.getD 0)

/-! ### Table view model (`components/DataGrid.tsx`) -/

/-- The sortable columns of the data grid (`keyof SaleRecord`). -/
inductive ColKey where
  | id | date | category | product | region | sales | quantity | profit
deriving DecidableEq, Repr, Fintype

/-- Sort directions of the grid's sort state. -/
inductive SortDir where
  | asc | desc
deriving DecidableEq, Repr, Fintype

/-- `handleSort` in `DataGrid.tsx`: returns the new `sortConfig` resulting
from a click on column `key`, given the current `sortConfig` (which is
`null`/`none` initially). -/
def handleSort (sortConfig : Option (ColKey × SortDir)) (key : ColKey) :
    Option (ColKey × SortDir) :=
  let direction : SortDir :=
    match sortConfig with
    | none =>
        if [ColKey.sales, ColKey.profit, ColKey.quantity, ColKey.date].contains key then
          SortDir.desc
        else SortDir.asc
    | some (k, d) =>
        if k ≠ key then
          if [ColKey.sales, ColKey.profit, ColKey.quantity, ColKey.date].contains key then
            SortDir.desc
          else SortDir.asc
        else if d = SortDir.asc then SortDir.desc else SortDir.asc
  some (key, direction)

/-- Millisecond timestamp of a calendar day `d` at 00:00:00.000 (the
`setHours(0,0,0,0)` applied to the parsed start-date input). -/
def dayStartTs (d : Int) : Int := d * 86400000

/-- Millisecond timestamp of a calendar day `d` at 23:59:59.999 (the
`setHours(23,59,59,999)` applied to the parsed end-date input). -/
def dayEndTs (d : Int) : Int := d * 86400000 + 86399999

/-- `filteredByDateData` in `DataGrid.tsx`: with no bound selected the data
passes through unchanged; otherwise keep records with
`startTs <= itemTs && itemTs <= endTs`, an absent bound standing for
`-Infinity` / `Infinity` (modelled by a vacuously true test). -/
def filteredByDateData (startDay endDay : Option Int) (data : List SaleRecord) :
    List SaleRecord :=
  match startDay, endDay with
  | none, none => data
  | _, _ =>
      data.filter fun item =>
        (match startDay with
         | none => true
         | some s => decide (dayStartTs s ≤ item.date)) &&
        (match endDay with
         | none => true
         | some e => decide (item.date ≤ dayEndTs e))

/-- `maxSales` in `DataGrid.tsx`: `Math.max(...sortedData.map(d => d.sales), 0)`. -/
def maxSales (sortedData : List SaleRecord) : ℚ :=
  (sortedData.map (·.sales)).foldr max 0

/-- `minSales` in `DataGrid.tsx`: `Math.min(...sortedData.map(d => d.sales), 0)`. -/
def minSales (sortedData : List SaleRecord) : ℚ :=
  (sortedData.map (·.sales)).foldr min 0

/-- `maxProfit` in `DataGrid.tsx`: `Math.max(...sortedData.map(d => d.profit), 0)`. -/
def maxProfit (sortedData : List SaleRecord) : ℚ :=
  (sortedData.map (·.profit)).foldr max 0

/-- The rows rendered in the table body: `sortedData.slice(0, 100)`. -/
def displayedRows (sortedData : List SaleRecord) : List SaleRecord :=
  sortedData.take 100

/-- One exported CSV row of `handleExportCSV` in `DataGrid.tsx`, as the
tuple of field values it serialises: date, category, product, region,
`sales * conversionFactor`, quantity, `profit * conversionFactor`.
Text rendering (locale date/label formatting, `toFixed(2)`) is
presentational and not modelled. -/
def csvRow (factor : ℚ) (row : SaleRecord) : Int × String × String × String × ℚ × Nat × ℚ :=
  (row.date, row.category, row.product, row.region,
    row.sales * factor, row.quantity, row.profit * factor)

/-- The row list built by `handleExportCSV`: one row per record of
`sortedData`, in order. -/
def exportRows (sortedData : List SaleRecord) (factor : ℚ) :
    List (Int × String × String × String × ℚ × Nat × ℚ) :=
  sortedData.map (csvRow factor)

/-! ### Category chart view model (`components/ChartsSection.tsx`) -/

/-- One step of the `reduce` in `categoryData`: add `v` to the entry of key
`k` of the accumulator object, creating the entry (at the end, matching JS
string-key insertion order) when absent. -/
def upsertAdd (acc : List (String × ℚ)) (k : String) (v : ℚ) : List (String × ℚ) :=
  match acc with
  | [] => [(k, v)]
  | (k', v') :: rest =>
      if k' = k then (k', v' + v) :: rest else (k', v') :: upsertAdd rest k v

/-- The grouping `reduce` of `categoryData` in `ChartsSection.tsx`:
category → sum of `sales`, entries in first-occurrence order
(`Object.entries` insertion order). -/
def groupByCategory (data : List SaleRecord) : List (String × ℚ) :=
  data.foldl (fun acc curr => upsertAdd acc curr.category curr.sales) []

/-- The comparator `(a, b) => b.value - a.value` of `categoryData`, as the
relation it sorts by: descending entry value. -/
def valueDescRel (a b : String × ℚ) : Prop := b.2 ≤ a.2

instance : DecidableRel valueDescRel :=
  fun a b => inferInstanceAs (Decidable (b.2 ≤ a.2))

instance : IsTotal (String × ℚ) valueDescRel :=
  ⟨fun a b => le_total b.2 a.2⟩

instance : IsTrans (String × ℚ) valueDescRel :=
  ⟨fun _ _ _ h1 h2 => le_trans h2 h1⟩

/-- The stable sort `(a, b) => b.value - a.value` applied at the end of
`categoryData`. -/
def sortDescByValue (l : List (String × ℚ)) : List (String × ℚ) :=
  l.insertionSort valueDescRel

/-- `categoryData` in `ChartsSection.tsx`: group the (already
region/category-filtered) data by category, scale each group's sales sum
by the conversion factor, and sort descending by value.  The translated
display name (`getDataTranslation`) is presentational and not modelled;
entries are keyed by the original category. -/
def categoryData (data : List SaleRecord) (factor : ℚ) : List (String × ℚ) :=
  sortDescByValue ((groupByCategory data).map fun p => (p.1, p.2 * factor))

/-- Sum of the values of a key/value entry list. -/
def sumValues (l : List (String × ℚ)) : ℚ :=
  (l.map Prod.snd).sum

/-! ### Concrete sample data (for witnesses and counterexamples) -/

/-- A sample record in the generator's vocabulary, dated at the epoch
day's 00:00:00.000. -/
def demoRec : SaleRecord :=
  { id := "a", date := 0, category := "Electronics", product := "P1",
    region := "North", sales := 100, quantity := 2, profit := 10 }

/-- A sample record with positive sales and a negative profit (a loss). -/
def demoRec2 : SaleRecord :=
  { id := "b", date := 86400000, category := "Food", product := "P2",
    region := "South", sales := 50, quantity := 1, profit := -10 }

/-- A sample record dated one millisecond after the epoch day's
23:59:59.999. -/
def demoRecOut : SaleRecord :=
  { id := "c", date := 86400000, category := "Food", product := "P3",
    region := "East", sales := 25, quantity := 1, profit := 5 }

/-- A sample rate table, with the ARS rate set to 2 so the conversion
factor for ARS is 2. -/
def demoRates : Rates := { USD := 5.75, ARS := 2, PYG := 1400, UYU := 7.6 }


/-! ### Helper lemmas -/

theorem foldl_add_sales (l : List SaleRecord) (a : ℚ) :
    l.foldl (fun sum item => sum + item.sales) a = a + (l.map (·.sales)).sum := by
  induction l generalizing a with
  | nil => simp
  | cons r t ih => simp [List.foldl_cons, ih]; ring

theorem metrics_totalSales_eq (data : List SaleRecord) :
    (metrics data).totalSales = (data.map (·.sales)).sum := by
  simpa [metrics] using foldl_add_sales data 0

theorem sumValues_nil : sumValues [] = 0 := rfl

theorem sumValues_cons (p : String × ℚ) (l : List (String × ℚ)) :
    sumValues (p :: l) = p.2 + sumValues l := by
  simp [sumValues]

theorem sumValues_upsertAdd (acc : List (String × ℚ)) (k : String) (v : ℚ) :
    sumValues (upsertAdd acc k v) = sumValues acc + v := by
  induction acc with
  | nil => simp [upsertAdd, sumValues]
  | cons p rest ih =>
      obtain ⟨k', v'⟩ := p
      by_cases h : k' = k
      · simp [upsertAdd, h, sumValues_cons]; ring
      · simp only [upsertAdd, if_neg h, sumValues_cons, ih]; ring

theorem sumValues_foldl_upsert (l : List SaleRecord) (acc : List (String × ℚ)) :
    sumValues (l.foldl (fun a c => upsertAdd a c.category c.sales) acc)
      = sumValues acc + (l.map (·.sales)).sum := by
  induction l generalizing acc with
  | nil => simp
  | cons r t ih => simp [List.foldl_cons, ih, sumValues_upsertAdd]; ring

theorem sumValues_groupByCategory (data : List SaleRecord) :
    sumValues (groupByCategory data) = (data.map (·.sales)).sum := by
  simpa [groupByCategory, sumValues] using sumValues_foldl_upsert data []

theorem sumValues_scale (l : List (String × ℚ)) (f : ℚ) :
    sumValues (l.map fun p => (p.1, p.2 * f)) = f * sumValues l := by
  induction l with
  | nil => simp [sumValues]
  | cons p t ih => simp [sumValues_cons, ih]; ring

theorem sumValues_sortDescByValue (l : List (String × ℚ)) :
    sumValues (sortDescByValue l) = sumValues l := by
  have h : List.Perm (sortDescByValue l) l := List.perm_insertionSort valueDescRel l
  exact (h.map Prod.snd).sum_eq

theorem foldr_max_spec (l : List ℚ) :
    0 ≤ l.foldr max 0 ∧ (∀ x ∈ l, x ≤ l.foldr max 0)
      ∧ (l.foldr max 0 = 0 ∨ l.foldr max 0 ∈ l) := by
  induction l with
  | nil => simp
  | cons a t ih =>
      refine ⟨le_trans ih.1 (le_max_right a _), ?_, ?_⟩
      · intro x hx
        rcases List.mem_cons.mp hx with h | h
        · exact h ▸ le_max_left _ _
        · exact le_trans (ih.2.1 x h) (le_max_right _ _)
      · rcases le_total a (t.foldr max 0) with h | h
        · rw [List.foldr_cons, max_eq_right h]
          rcases ih.2.2 with h0 | hm
          · exact Or.inl h0
          · exact Or.inr (List.mem_cons_of_mem _ hm)
        · rw [List.foldr_cons, max_eq_left h]
          exact Or.inr (List.mem_cons_self _ _)

theorem foldr_min_spec (l : List ℚ) :
    l.foldr min 0 ≤ 0 ∧ (∀ x ∈ l, l.foldr min 0 ≤ x)
      ∧ (l.foldr min 0 = 0 ∨ l.foldr min 0 ∈ l) := by
  induction l with
  | nil => simp
  | cons a t ih =>
      refine ⟨le_trans (min_le_right a _) ih.1, ?_, ?_⟩
      · intro x hx
        rcases List.mem_cons.mp hx with h | h
        · exact h ▸ min_le_left _ _
        · exact le_trans (min_le_right _ _) (ih.2.1 x h)
      · rcases le_total a (t.foldr min 0) with h | h
        · rw [List.foldr_cons, min_eq_left h]
          exact Or.inr (List.mem_cons_self _ _)
        · rw [List.foldr_cons, min_eq_right h]
          rcases ih.2.2 with h0 | hm
          · exact Or.inl h0
          · exact Or.inr (List.mem_cons_of_mem _ hm)

/-! ### Claim theorems -/

/-- C1: `filterData` returns exactly the subsequence of its input whose
region passes the region selection and whose category passes the category
selection (empty selection = no restriction); `filter(R, ∅, ∅) = R`, the
result is a sub-list (order-preserving subset) of the input, and an empty
input yields an empty result. -/
theorem filterData_spec (data : List SaleRecord) (rs cs : List String) :
    (∀ r : SaleRecord, r ∈ filterData data rs cs ↔
        r ∈ data ∧ (rs = [] ∨ r.region ∈ rs) ∧ (cs = [] ∨ r.category ∈ cs))
    ∧ (filterData data rs cs).Sublist data
    ∧ filterData data [] [] = data
    ∧ filterData ([] : List SaleRecord) rs cs = [] := by
  refine ⟨fun r => ?_, List.filter_sublist _, by simp [filterData], rfl⟩
  simp [filterData, List.mem_filter, List.isEmpty_iff, and_assoc]

/-- C2: the conversion factor is 1 for the base currency BRL, the
reciprocal `1 / rate[USD]` for the inversely quoted USD, and `rate[c]`
for each other non-base currency; in particular the factor at the base
currency is 1 for every rate table. -/
theorem conversionFactor_spec (rates : Rates) :
    conversionFactor Currency.BRL rates = 1
    ∧ conversionFactor Currency.USD rates = 1 / rates.USD
    ∧ conversionFactor Currency.ARS rates = rates.ARS
    ∧ conversionFactor Currency.PYG rates = rates.PYG
    ∧ conversionFactor Currency.UYU rates = rates.UYU
    ∧ conversionFactor baseCurrency rates = 1 :=
  ⟨rfl, rfl, rfl, rfl, rfl, rfl⟩

/-- C9: the region/category filter is idempotent. -/
theorem filterData_idempotent (data : List SaleRecord) (rs cs : List String) :
    filterData (filterData data rs cs) rs cs = filterData data rs cs := by
  simp [filterData, List.filter_filter]

/-- C5: the average ticket equals `totalSales / count` on a non-empty
filtered set and 0 on an empty one, and on an empty set all aggregates
are 0 (the division-by-zero branch yields the defined value 0). -/
theorem metrics_avgTicket_spec :
    (metrics []).totalSales = 0 ∧ (metrics []).totalQuantity = 0
    ∧ (metrics []).totalProfit = 0 ∧ (metrics []).avgTicket = 0
    ∧ ∀ data : List SaleRecord, 0 < data.length →
        (metrics data).avgTicket = (metrics data).totalSales / (data.length : ℚ) := by
  refine ⟨rfl, rfl, rfl, rfl, fun data h => ?_⟩
  simp [metrics, h]

/-- Witness for C5 at a concrete non-empty record list. -/
theorem metrics_avgTicket_spec_witness :
    0 < ([demoRec] : List SaleRecord).length
    ∧ (metrics [demoRec]).avgTicket
        = (metrics [demoRec]).totalSales / (([demoRec] : List SaleRecord).length : ℚ) :=
  ⟨by simp, metrics_avgTicket_spec.2.2.2.2 [demoRec] (by simp)⟩

/-- C6: the stored rate is `max(0.0001, parsed-or-0)`: it is always at
least the strictly positive minimum 0.0001, the inputs `-5` and
non-numeric text both store exactly 0.0001, and a parsed value at or
above the minimum is stored unchanged. -/
theorem clampRate_spec :
    (∀ p : Option ℚ, (0.0001 : ℚ) ≤ clampRate p ∧ 0 < clampRate p)
    ∧ clampRate (some (-5)) = (0.0001 : ℚ)
    ∧ clampRate none = (0.0001 : ℚ)
    ∧ (∀ v : ℚ, (0.0001 : ℚ) ≤ v → clampRate (some v) = v) := by
  refine ⟨fun p => ⟨le_max_left _ _, lt_of_lt_of_le (by norm_num) (le_max_left _ _)⟩,
    max_eq_left (by norm_num), max_eq_left (by norm_num),
    fun v hv => max_eq_right hv⟩

/-- Witness for C6: an in-range parsed value is stored unchanged. -/
theorem clampRate_spec_witness :
    (0.0001 : ℚ) ≤ 5 ∧ clampRate (some 5) = 5 :=
  ⟨by norm_num, clampRate_spec.2.2.2 5 (by norm_num)⟩

/-- C4: the table's date-range filter keeps a record iff its timestamp
lies in the closed interval from the start day's 00:00:00.000 to the end
day's 23:59:59.999, an absent bound leaving that side unbounded; hence a
record exactly on either bound is kept and one a millisecond outside is
dropped. -/
theorem filteredByDateData_mem (startDay endDay : Option Int)
    (data : List SaleRecord) (r : SaleRecord) :
    r ∈ filteredByDateData startDay endDay data ↔
      r ∈ data
      ∧ (∀ s, startDay = some s → dayStartTs s ≤ r.date)
      ∧ (∀ e, endDay = some e → r.date ≤ dayEndTs e) := by
  cases startDay <;> cases endDay <;>
    simp [filteredByDateData, List.mem_filter, and_assoc]

/-- Witness for C4: a record dated exactly at the start day's 00:00 is
kept; one dated one millisecond past the end day's 23:59:59.999 is
dropped. -/
theorem filteredByDateData_mem_witness :
    demoRec ∈ filteredByDateData (some 0) (some 0) [demoRec]
    ∧ demoRecOut ∉ filteredByDateData (some 0) (some 0) [demoRecOut] := by
  constructor
  · exact (filteredByDateData_mem (some 0) (some 0) [demoRec] demoRec).mpr
      ⟨by simp, fun s hs => by cases hs; simp [dayStartTs, demoRec],
        fun e he => by cases he; norm_num [dayEndTs, demoRec]⟩
  · intro h
    have := ((filteredByDateData_mem (some 0) (some 0) [demoRecOut] demoRecOut).mp h).2.2 0 rfl
    norm_num [dayEndTs, demoRecOut] at this

/-- C8: clicking a column that is not the active sort key selects it with
direction descending for sales, profit, quantity and date and ascending
for every other field; clicking the active key toggles the direction. -/
theorem handleSort_spec (cfg : Option (ColKey × SortDir)) (key : ColKey) :
    ((∀ d : SortDir, cfg ≠ some (key, d)) →
        handleSort cfg key = some (key,
          if key = ColKey.sales ∨ key = ColKey.profit ∨ key = ColKey.quantity ∨ key = ColKey.date
          then SortDir.desc else SortDir.asc))
    ∧ (∀ d : SortDir, cfg = some (key, d) →
        handleSort cfg key
          = some (key, if d = SortDir.asc then SortDir.desc else SortDir.asc)) := by
  constructor
  · intro h
    match cfg with
    | none => cases key <;> rfl
    | some (k, d) =>
        have hk : k ≠ key := fun hkk => h d (by rw [hkk])
        simp only [handleSort, if_pos hk]
        cases key <;> rfl
  · intro d hd
    subst hd
    simp only [handleSort, ne_eq, not_true_eq_false, if_neg]
    cases d <;> rfl

/-- Witness for C8: a first click on sales sorts descending; a second
click on sales toggles to ascending. -/
theorem handleSort_spec_witness :
    handleSort none ColKey.sales = some (ColKey.sales, SortDir.desc)
    ∧ handleSort (some (ColKey.sales, SortDir.desc)) ColKey.sales
        = some (ColKey.sales, SortDir.asc) := by
  constructor
  · exact ((handleSort_spec none ColKey.sales).1 (by decide)).trans (by decide)
  · exact ((handleSort_spec (some (ColKey.sales, SortDir.desc)) ColKey.sales).2
      SortDir.desc rfl).trans (by decide)

/-- Counterexample to C7 as stated: for a single visible record with
sales 50 and profit −10, the exposed `minSales` is 0 (not the set's
minimum sales value 50) and the exposed `maxProfit` is 0 (not the set's
maximum profit value −10), because the code adjoins 0 to every min/max. -/
theorem heatmapStats_claim_cex :
    minSales [demoRec2] = 0 ∧ demoRec2.sales = 50 ∧ (0 : ℚ) ≠ 50
    ∧ maxProfit [demoRec2] = 0 ∧ demoRec2.profit = -10 ∧ (0 : ℚ) ≠ -10 := by
  refine ⟨by decide, rfl, by norm_num, by decide, rfl, by norm_num⟩

/-- C7 amended: each heatmap statistic is the corresponding min/max of
the visible records' values together with 0: `maxSales` is an upper
bound of the sales values, is non-negative, and is 0 or attained;
`minSales` is a non-positive lower bound, 0 or attained; `maxProfit` is
a non-negative upper bound of the profit values, 0 or attained. -/
theorem heatmapStats_amended (data : List SaleRecord) :
    (0 ≤ maxSales data ∧ (∀ r ∈ data, r.sales ≤ maxSales data)
      ∧ (maxSales data = 0 ∨ ∃ r ∈ data, maxSales data = r.sales))
    ∧ (minSales data ≤ 0 ∧ (∀ r ∈ data, minSales data ≤ r.sales)
      ∧ (minSales data = 0 ∨ ∃ r ∈ data, minSales data = r.sales))
    ∧ (0 ≤ maxProfit data ∧ (∀ r ∈ data, r.profit ≤ maxProfit data)
      ∧ (maxProfit data = 0 ∨ ∃ r ∈ data, maxProfit data = r.profit)) := by
  refine ⟨⟨(foldr_max_spec _).1, fun r hr => ?_, ?_⟩,
    ⟨(foldr_min_spec _).1, fun r hr => ?_, ?_⟩,
    ⟨(foldr_max_spec _).1, fun r hr => ?_, ?_⟩⟩
  · exact (foldr_max_spec _).2.1 r.sales (List.mem_map_of_mem _ hr)
  · rcases (foldr_max_spec (data.map (·.sales))).2.2 with h0 | hm
    · exact Or.inl h0
    · obtain ⟨r, hr, he⟩ := List.mem_map.mp hm
      exact Or.inr ⟨r, hr, he.symm⟩
  · exact (foldr_min_spec _).2.1 r.sales (List.mem_map_of_mem _ hr)
  · rcases (foldr_min_spec (data.map (·.sales))).2.2 with h0 | hm
    · exact Or.inl h0
    · obtain ⟨r, hr, he⟩ := List.mem_map.mp hm
      exact Or.inr ⟨r, hr, he.symm⟩
  · exact (foldr_max_spec _).2.1 r.profit (List.mem_map_of_mem _ hr)
  · rcases (foldr_max_spec (data.map (·.profit))).2.2 with h0 | hm
    · exact Or.inl h0
    · obtain ⟨r, hr, he⟩ := List.mem_map.mp hm
      exact Or.inr ⟨r, hr, he.symm⟩

/-- Witness for C7 (amended) at a concrete one-record set. -/
theorem heatmapStats_amended_witness :
    demoRec2 ∈ [demoRec2]
    ∧ demoRec2.sales ≤ maxSales [demoRec2]
    ∧ minSales [demoRec2] ≤ demoRec2.sales :=
  ⟨List.mem_cons_self _ _,
    (heatmapStats_amended [demoRec2]).1.2.1 demoRec2 (List.mem_cons_self _ _),
    (heatmapStats_amended [demoRec2]).2.1.2.1 demoRec2 (List.mem_cons_self _ _)⟩

/-- C10: the rendered table shows exactly the first 100 records of the
ordered set while the CSV export serialises every record of it: the
export always has one row per record; for at most 100 records the
displayed rows are the whole set and the export is exactly their
serialisation; for more than 100 records exactly 100 are displayed (an
order-preserving prefix of the set) and the export has strictly more
rows than are displayed. -/
theorem exportRows_displayedRows_spec (data : List SaleRecord) (factor : ℚ) :
    (exportRows data factor).length = data.length
    ∧ (data.length ≤ 100 →
        displayedRows data = data
        ∧ exportRows data factor = (displayedRows data).map (csvRow factor))
    ∧ (100 < data.length →
        (displayedRows data).length = 100
        ∧ displayedRows data <+: data
        ∧ (displayedRows data).length < (exportRows data factor).length) := by
  refine ⟨List.length_map _ _, fun h => ?_, fun h => ?_⟩
  · have hd : displayedRows data = data := List.take_of_length_le h
    exact ⟨hd, by rw [hd]; rfl⟩
  · refine ⟨?_, List.take_prefix _ _, ?_⟩
    · simp [displayedRows, List.length_take, Nat.min_eq_left (Nat.le_of_lt h)]
    · simp only [displayedRows, exportRows, List.length_take, List.length_map]
      omega

/-- Witness for C10: a 101-record set displays exactly 100 rows but
exports all 101; a 1-record set displays and exports the same row. -/
theorem exportRows_displayedRows_spec_witness :
    (displayedRows (List.replicate 101 demoRec)).length = 100
    ∧ (displayedRows (List.replicate 101 demoRec)).length
        < (exportRows (List.replicate 101 demoRec) 1).length
    ∧ displayedRows [demoRec] = [demoRec]
    ∧ exportRows [demoRec] 1 = (displayedRows [demoRec]).map (csvRow 1) := by
  have h101 := (exportRows_displayedRows_spec (List.replicate 101 demoRec) 1).2.2 (by simp)
  have h1 := (exportRows_displayedRows_spec [demoRec] 1).2.1 (by simp)
  exact ⟨h101.1, h101.2.2, h1.1, h1.2⟩

/-- Counterexample to C3 as stated: for one record with sales 100 and the
ARS display currency at rate 2 (conversion factor 2), the category
chart's group values sum to 200 while `totalSales` over the same
filtered set is 100 — the chart values carry the conversion factor, the
aggregate does not. -/
theorem categorySum_claim_cex :
    conversionFactor Currency.ARS demoRates = 2
    ∧ sumValues (categoryData [demoRec] (conversionFactor Currency.ARS demoRates)) = 200
    ∧ (metrics [demoRec]).totalSales = 100
    ∧ (200 : ℚ) ≠ 100 := by
  refine ⟨rfl, ?_, ?_, by norm_num⟩
  · norm_num [categoryData, groupByCategory, upsertAdd, sortDescByValue, sumValues,
      conversionFactor, demoRates, demoRec, List.insertionSort, List.orderedInsert]
  · norm_num [metrics, demoRec]

/-- C3 amended: the category chart's group values sum to the conversion
factor times `totalSales` of the same filtered set (so they sum to
`totalSales` exactly when the factor is 1, e.g. in the base currency),
and the chart entries are sorted descending by value. -/
theorem categorySum_amended (data : List SaleRecord) (factor : ℚ) :
    sumValues (categoryData data factor) = factor * (metrics data).totalSales
    ∧ (categoryData data factor).Pairwise (fun a b => b.2 ≤ a.2)
    ∧ (factor = 1 → sumValues (categoryData data factor) = (metrics data).totalSales) := by
  have hsum : sumValues (categoryData data factor) = factor * (metrics data).totalSales := by
    rw [categoryData, sumValues_sortDescByValue, sumValues_scale,
      sumValues_groupByCategory, metrics_totalSales_eq]
  refine ⟨hsum, ?_, fun h => by rw [hsum, h, one_mul]⟩
  exact List.sorted_insertionSort valueDescRel _

/-- Witness for C3 (amended): with factor 1 the group values sum exactly
to `totalSales`. -/
theorem categorySum_amended_witness :
    (1 : ℚ) = 1
    ∧ sumValues (categoryData [demoRec] 1) = (metrics [demoRec]).totalSales :=
  ⟨rfl, (categorySum_amended [demoRec] 1).2.2 rfl⟩
